import Mathlib

/-!
Verification of the job-listing extraction core of `src/main.py`
(TejasBhovad/found-it-server).

The Python functions `sanitize_string`, `parse_relative_date`,
`parse_jobs`, the validators of `JobSearchRequest`, and the URL
construction of `search_jobs` are shallowly embedded below.  Fallible
Python code (code that can raise) is embedded as `Except PyError`;
the runtime's implicit clock (`datetime.today()`) is passed as an
explicit epoch-day parameter; HTML documents already parsed by
BeautifulSoup are embedded as a tree of element and text nodes.

Documented modelling choices for library calls made by the source:
* `str.encode('utf-8').decode('unicode_escape')` is embedded as UTF-8
  byte encoding followed by a byte-level decoder implementing CPython's
  `unicode_escape` codec.  The `\N{name}` escape, which needs the
  Unicode name database, is modelled as a decoding failure (CPython
  fails on malformed or unknown names and succeeds on known ones);
  `\uXXXX` escapes denoting lone surrogates are modelled through
  `Char.ofNat`'s total behaviour.  No theorem below depends on either
  corner.
* the regex `\s` / `str.strip` whitespace class is the predicate
  `isPySpace` below (ASCII whitespace, the C1 control gap 0x1C-0x1F,
  NEL, NBSP and the Unicode space separators).
* the regex `\d` of `re.search(r'\d+', s)` is modelled as the ASCII
  digits (the scraped phrases are ASCII).
* dates are modelled as unbounded integer day counts (proleptic
  Gregorian calendar); Python's `datetime` year range 1..9999 is not
  modelled.  `%Y` is rendered without zero padding, as on glibc.
-/

set_option maxHeartbeats 2000000
set_option maxRecDepth 100000

namespace FoundIt

/-- Python runtime errors raised by the embedded fragments of `main.py`. -/
inductive PyError where
  | attributeError
  | typeError
  | keyError
  | unicodeDecodeError
  deriving DecidableEq, Repr

instance {ε α : Type} [DecidableEq ε] [DecidableEq α] : DecidableEq (Except ε α) :=
  fun a b =>
    match a, b with
    | .ok x, .ok y =>
      if h : x = y then .isTrue (by rw [h]) else .isFalse (by intro hc; cases hc; exact h rfl)
    | .error x, .error y =>
      if h : x = y then .isTrue (by rw [h]) else .isFalse (by intro hc; cases hc; exact h rfl)
    | .ok _, .error _ => .isFalse (by intro hc; cases hc)
    | .error _, .ok _ => .isFalse (by intro hc; cases hc)

/-- The printable ASCII range 0x20..0x7E, the characters kept by
`re.sub(r'[^\x20-\x7E]', '', s)` (line 90 of `main.py`). -/
def isPrintableAscii (c : Char) : Bool :=
  0x20 ≤ c.toNat && c.toNat ≤ 0x7E

/-- The whitespace class used by Python's `\s` (on `str`) and `str.strip()`:
ASCII whitespace, the information separators 0x1C-0x1F, NEL, NBSP and the
Unicode space separators. -/
def isPySpace (c : Char) : Bool :=
  let n := c.toNat
  (0x09 ≤ n && n ≤ 0x0D) || n == 0x20 || (0x1C ≤ n && n ≤ 0x1F) ||
    n == 0x85 || n == 0xA0 || n == 0x1680 || (0x2000 ≤ n && n ≤ 0x200A) ||
    n == 0x2028 || n == 0x2029 || n == 0x202F || n == 0x205F || n == 0x3000

/-- `re.sub(r'\s+', ' ', s)` (line 91 of `main.py`): every maximal run of
whitespace collapses to one space, emitted at the last character of the run. -/
def subWs : List Char → List Char
  | [] => []
  | [c] => if isPySpace c then [' '] else [c]
  | c1 :: c2 :: cs =>
    if isPySpace c1 && isPySpace c2 then subWs (c2 :: cs)
    else (if isPySpace c1 then ' ' else c1) :: subWs (c2 :: cs)

/-- Python `str.strip()` on a character list. -/
def pyStrip (l : List Char) : List Char :=
  ((l.dropWhile isPySpace).reverse.dropWhile isPySpace).reverse

/-- Python `str.strip()`. -/
def pyStripS (s : String) : String := ⟨pyStrip s.data⟩

/-- UTF-8 encoding of one Unicode scalar value (`str.encode('utf-8')`),
written with arithmetic on byte values. -/
def utf8EncodeChar (c : Char) : List Nat :=
  let n := c.toNat
  if n < 0x80 then [n]
  else if n < 0x800 then [0xC0 + n / 0x40, 0x80 + n % 0x40]
  else if n < 0x10000 then
    [0xE0 + n / 0x1000, 0x80 + n / 0x40 % 0x40, 0x80 + n % 0x40]
  else
    [0xF0 + n / 0x40000, 0x80 + n / 0x1000 % 0x40,
      0x80 + n / 0x40 % 0x40, 0x80 + n % 0x40]

/-- `str.encode('utf-8')` on a character list. -/
def utf8Encode (l : List Char) : List Nat :=
  (l.map utf8EncodeChar).flatten

/-- Octal digit byte. -/
def isOctDigitB (b : Nat) : Bool := 0x30 ≤ b && b ≤ 0x37

/-- Hexadecimal digit byte. -/
def isHexDigitB (b : Nat) : Bool :=
  (0x30 ≤ b && b ≤ 0x39) || (0x41 ≤ b && b ≤ 0x46) || (0x61 ≤ b && b ≤ 0x66)

/-- Value of a hexadecimal digit byte. -/
def hexValB (b : Nat) : Nat :=
  if b ≤ 0x39 then b - 0x30 else if b ≤ 0x46 then b - 0x37 else b - 0x57

/-- One escape sequence, given the bytes after the backslash: the emitted
characters and the remaining bytes, or an error on a truncated or malformed
escape.  The cases are CPython's: a newline is a line continuation (emits
nothing), the single-character escapes, one to three octal digits, `\xhh`,
`\uhhhh`, `\Uhhhhhhhh` (at most 0x10FFFF), `\N` (see the file header), and
an unrecognised escape emits the backslash and the following byte. -/
def escStep : List Nat → Except PyError (List Char × List Nat)
  | [] => .error .unicodeDecodeError
  | e :: rest =>
    if e == 0x0A then .ok ([], rest)
    else if e == 0x5C then .ok ([Char.ofNat 0x5C], rest)
    else if e == 0x27 then .ok ([Char.ofNat 0x27], rest)
    else if e == 0x22 then .ok ([Char.ofNat 0x22], rest)
    else if e == 0x61 then .ok ([Char.ofNat 0x07], rest)
    else if e == 0x62 then .ok ([Char.ofNat 0x08], rest)
    else if e == 0x66 then .ok ([Char.ofNat 0x0C], rest)
    else if e == 0x6E then .ok ([Char.ofNat 0x0A], rest)
    else if e == 0x72 then .ok ([Char.ofNat 0x0D], rest)
    else if e == 0x74 then .ok ([Char.ofNat 0x09], rest)
    else if e == 0x76 then .ok ([Char.ofNat 0x0B], rest)
    else if isOctDigitB e then
      match rest with
      | [] => .ok ([Char.ofNat (e - 0x30)], [])
      | r1 :: rest1 =>
        if isOctDigitB r1 then
          match rest1 with
          | [] => .ok ([Char.ofNat ((e - 0x30) * 8 + (r1 - 0x30))], [])
          | r2 :: rest2 =>
            if isOctDigitB r2 then
              .ok ([Char.ofNat ((e - 0x30) * 64 + (r1 - 0x30) * 8 + (r2 - 0x30))], rest2)
            else .ok ([Char.ofNat ((e - 0x30) * 8 + (r1 - 0x30))], r2 :: rest2)
        else .ok ([Char.ofNat (e - 0x30)], r1 :: rest1)
    else if e == 0x78 then
      match rest with
      | h1 :: h2 :: rest2 =>
        if isHexDigitB h1 && isHexDigitB h2 then
          .ok ([Char.ofNat (hexValB h1 * 16 + hexValB h2)], rest2)
        else .error .unicodeDecodeError
      | _ => .error .unicodeDecodeError
    else if e == 0x75 then
      match rest with
      | h1 :: h2 :: h3 :: h4 :: rest4 =>
        if isHexDigitB h1 && isHexDigitB h2 && isHexDigitB h3 && isHexDigitB h4 then
          .ok ([Char.ofNat (hexValB h1 * 0x1000 + hexValB h2 * 0x100 +
            hexValB h3 * 16 + hexValB h4)], rest4)
        else .error .unicodeDecodeError
      | _ => .error .unicodeDecodeError
    else if e == 0x55 then
      match rest with
      | h1 :: h2 :: h3 :: h4 :: h5 :: h6 :: h7 :: h8 :: rest8 =>
        if isHexDigitB h1 && isHexDigitB h2 && isHexDigitB h3 && isHexDigitB h4 &&
            isHexDigitB h5 && isHexDigitB h6 && isHexDigitB h7 && isHexDigitB h8 then
          let v := hexValB h1 * 0x10000000 + hexValB h2 * 0x1000000 +
            hexValB h3 * 0x100000 + hexValB h4 * 0x10000 + hexValB h5 * 0x1000 +
            hexValB h6 * 0x100 + hexValB h7 * 16 + hexValB h8
          if v ≤ 0x10FFFF then .ok ([Char.ofNat v], rest8)
          else .error .unicodeDecodeError
        else .error .unicodeDecodeError
      | _ => .error .unicodeDecodeError
    else if e == 0x4E then .error .unicodeDecodeError
    else .ok ([Char.ofNat 0x5C, Char.ofNat e], rest)

/-- Recursive descent of CPython's `unicode_escape` bytes decoder: a
non-backslash byte is its Latin-1 character; a backslash starts an escape
(`escStep`).  Each step consumes at least one byte and one unit of fuel, so
with fuel at least the length of the input the fuel never runs out
(`unicodeEscapeDecode` below supplies the length itself); the fuel only
makes the recursion structural. -/
def uedAux : Nat → List Nat → Except PyError (List Char)
  | _, [] => .ok []
  | 0, _ :: _ => .error .unicodeDecodeError
  | fuel + 1, b :: bs =>
    if b == 0x5C then
      match escStep bs with
      | .error e => .error e
      | .ok (cs, rest) => (uedAux fuel rest).map (cs ++ ·)
    else (uedAux fuel bs).map (Char.ofNat b :: ·)

/-- CPython's `unicode_escape` bytes decoder (`bytes.decode('unicode_escape')`):
every byte outside an escape is read as its Latin-1 character; recognised
backslash escapes are the single-character escapes, up to three octal digits,
`\xhh`, `\uhhhh` and `\Uhhhhhhhh`; a backslash before a newline is a line
continuation; an unrecognised escape keeps the backslash and the following
byte; a truncated escape (for instance a trailing backslash) raises
`UnicodeDecodeError`.  `\N{name}` is modelled as a failure (see the file
header). -/
def unicodeEscapeDecode (bs : List Nat) : Except PyError (List Char) :=
  uedAux bs.length bs

/-- Lines 88-92 of `main.py`:

    def sanitize_string(input_string: str) -> str:
        sanitized_string = input_string.encode('utf-8').decode('unicode_escape')
        sanitized_string = re.sub(r'[^\x20-\x7E]', '', sanitized_string)
        sanitized_string = re.sub(r'\s+', ' ', sanitized_string).strip()
        return sanitized_string
-/
def sanitize_string (input_string : String) : Except PyError String :=
  match unicodeEscapeDecode (utf8Encode input_string.data) with
  | .error e => .error e
  | .ok decoded => .ok ⟨pyStrip (subWs (decoded.filter isPrintableAscii))⟩

/-- Proleptic-Gregorian date of an epoch-day count (day 0 = 1970-01-01),
as (year, month, day). -/
def civilFromDays (z0 : Int) : Int × Nat × Nat :=
  let z := z0 + 719468
  let era : Int := Int.fdiv z 146097
  let doe : Nat := (z - era * 146097).toNat
  let yoe : Nat := (doe - doe / 1460 + doe / 36524 - doe / 146096) / 365
  let y : Int := era * 400 + yoe
  let doy : Nat := doe - (365 * yoe + yoe / 4 - yoe / 100)
  let mp : Nat := (5 * doy + 2) / 153
  let d : Nat := doy - (153 * mp + 2) / 5 + 1
  let m : Nat := if mp < 10 then mp + 3 else mp - 9
  (if m ≤ 2 then y + 1 else y, m, d)

/-- Epoch-day count of a proleptic-Gregorian date. -/
def daysFromCivil (y : Int) (m d : Nat) : Int :=
  let y1 : Int := if m ≤ 2 then y - 1 else y
  let era : Int := Int.fdiv y1 400
  let yoe : Nat := (y1 - era * 400).toNat
  let mm : Nat := if m > 2 then m - 3 else m + 9
  let doy : Nat := (153 * mm + 2) / 5 + d - 1
  let doe : Nat := yoe * 365 + yoe / 4 - yoe / 100 + doy
  era * 146097 + (doe : Int) - 719468

/-- Two-digit zero padding of `strftime`. -/
def pad2 (n : Nat) : String := if n < 10 then "0" ++ toString n else toString n

/-- `strftime('%Y-%m-%d')` of an epoch-day count. -/
def isoFormat (t : Int) : String :=
  match civilFromDays t with
  | (y, m, d) => toString y ++ "-" ++ pad2 m ++ "-" ++ pad2 d

/-- First run of ASCII digits in the character list, as a number
(`int(re.search(r'\d+', s).group())`); `none` when `re.search` returns
`None`. -/
def firstInt : List Char → Option Nat
  | [] => none
  | c :: cs =>
    if c.isDigit then
      some ((c :: cs.takeWhile Char.isDigit).foldl (fun a d => a * 10 + (d.toNat - 0x30)) 0)
    else firstInt cs

/-- Substring occurrence of `nd` at some position of the second list. -/
def substrAux (nd : List Char) : List Char → Bool
  | [] => nd.isEmpty
  | c :: cs => nd.isPrefixOf (c :: cs) || substrAux nd cs

/-- Python's substring test `needle in hay`. -/
def strContains (hay needle : String) : Bool :=
  substrAux needle.data hay.data

/-- Lines 94-108 of `main.py` (`parse_relative_date`).  `datetime.today()`
is passed explicitly as the epoch-day count `today`; `int(re.search(...)
.group())` raises `AttributeError` when the phrase holds no digits. -/
def parse_relative_date (relative_date : String) (today : Int) : Except PyError String :=
  if strContains relative_date "day" then
    match firstInt relative_date.data with
    | none => .error .attributeError
    | some days => .ok (isoFormat (today - days))
  else if strContains relative_date "week" then
    match firstInt relative_date.data with
    | none => .error .attributeError
    | some weeks => .ok (isoFormat (today - weeks * 7))
  else if strContains relative_date "month" then
    match firstInt relative_date.data with
    | none => .error .attributeError
    | some months => .ok (isoFormat (today - months * 30))
  else if strContains relative_date "year" then
    match firstInt relative_date.data with
    | none => .error .attributeError
    | some years => .ok (isoFormat (today - years * 365))
  else .ok (isoFormat today)

/-- Epoch-day count of 2024-01-10, the reference instant of the spec's
examples. -/
def d20240110 : Int := daysFromCivil 2024 1 10

/-- The `LOCATION` mapping (lines 31-41 of `main.py`), in insertion order. -/
def LOCATION : List (String × String) :=
  [("Los Angeles", "los-angeles"), ("New York", "new-york"),
   ("San Francisco", "san-francisco"), ("Seattle", "seattle"),
   ("Boston", "boston"), ("Chicago", "chicago"), ("Denver", "denver"),
   ("Austin", "austin"), ("District of Columbia", "district-of-columbia")]

/-- The `TITLE` mapping (lines 43-58 of `main.py`), in insertion order. -/
def TITLE : List (String × String) :=
  [("Software Engineer", "software-engineer"),
   ("Engineering Manager", "engineering-manager"),
   ("Artificial Intelligence Engineer", "artificial-intelligence-engineer"),
   ("Machine Learning Engineer", "machine-learning-engineer"),
   ("Backend Engineer", "backend-engineer"), ("Mobile Engineer", "mobile-engineer"),
   ("Product Designer", "product-designer"), ("Frontend Engineer", "frontend-engineer"),
   ("Data Scientist", "data-scientist"), ("Full Stack Engineer", "full-stack-engineer"),
   ("Product Manager", "product-manager"), ("Designer", "designer"),
   ("Software Architect", "software-architect"), ("DevOps Engineer", "devops-engineer")]

/-- Python `dict` lookup `d[k]` (as an `Option`). -/
def dictGet (d : List (String × String)) (k : String) : Option String :=
  (d.find? (fun p => p.1 == k)).map (fun p => p.2)

/-- Python `', '.join(d.keys())`. -/
def joinKeys (d : List (String × String)) : String :=
  String.intercalate ", " (d.map (fun p => p.1))

/-- The `validate_job_title` field validator (lines 64-69 of `main.py`). -/
def validate_job_title (v : String) : Except String String :=
  if (dictGet TITLE v).isSome then .ok v
  else .error ("Invalid job title. Must be one of: " ++ joinKeys TITLE)

/-- The `validate_job_location` field validator (lines 71-76 of `main.py`). -/
def validate_job_location (v : Option String) : Except String (Option String) :=
  match v with
  | none => .ok none
  | some l =>
    if (dictGet LOCATION l).isSome then .ok (some l)
    else .error ("Invalid location. Must be one of: " ++ joinKeys LOCATION)

/-- URL construction of `search_jobs` (lines 147-150 of `main.py`); `none`
when a label is outside its mapping (the validators reject such requests
before this code runs, and `TITLE[...]`/`LOCATION[...]` would raise
`KeyError`). -/
def searchURL (job_title : String) (job_location : Option String) : Option String :=
  match dictGet TITLE job_title with
  | none => none
  | some tslug =>
    match job_location with
    | none => some ("https://wellfound.com/role/" ++ tslug)
    | some loc =>
      match dictGet LOCATION loc with
      | none => none
      | some lslug => some ("https://wellfound.com/role/l/" ++ tslug ++ "/" ++ lslug)

mutual
/-- A node of the BeautifulSoup document tree: an element with tag name,
`class` attribute string, remaining attributes and children, or a text node. -/
inductive Node where
  | elem (tag classAttr : String) (attrs : List (String × String)) (children : NodeList)
  | text (s : String)
/-- A children list (a separate type keeps every recursion structural). -/
inductive NodeList where
  | nil
  | cons (n : Node) (ns : NodeList)
end

/-- Children list from a `List` literal. -/
def nodes : List Node → NodeList
  | [] => .nil
  | n :: ns => .cons n (nodes ns)

mutual
/-- `tag.text`: concatenation of every string in the subtree, in document
order. -/
def texts : Node → String
  | .text s => s
  | .elem _ _ _ cs => textsL cs
/-- `texts` over a children list. -/
def textsL : NodeList → String
  | .nil => ""
  | .cons n ns => texts n ++ textsL ns
end

mutual
/-- `find_all` restricted to the descendants of one node (BeautifulSoup's
`tag.find_all` never matches the tag itself), in document (pre-)order. -/
def findAllFrom (p : Node → Bool) : Node → List Node
  | .text _ => []
  | .elem _ _ _ cs => findAllL p cs
/-- `findAllFrom` over a children list: each child, then its descendants. -/
def findAllL (p : Node → Bool) : NodeList → List Node
  | .nil => []
  | .cons n ns => (if p n then [n] else []) ++ findAllFrom p n ++ findAllL p ns
end

/-- `tag.find(...)`: first matching descendant, if any. -/
def findFirst (p : Node → Bool) (n : Node) : Option Node :=
  (findAllFrom p n).head?

/-- Matcher for `find(name, class_=c)`.  The source always passes the full
class string, so class matching is modelled as equality on the `class`
attribute value. -/
def matchesTC (tag cls : String) : Node → Bool
  | .elem t c _ _ => t == tag && c == cls
  | .text _ => false

/-- Matcher for `find(name)` with no class filter. -/
def matchesTag (tag : String) : Node → Bool
  | .elem t _ _ _ => t == tag
  | .text _ => false

/-- `tag[key]` attribute access, as an `Option`. -/
def attrOf : Node → String → Option String
  | .elem _ _ attrs _, k => (attrs.find? (fun p => p.1 == k)).map (fun p => p.2)
  | .text _, _ => none

/-- `re.search(r'https://[^\s]+', s)`: the first occurrence of `https://`
followed by at least one non-whitespace character, matched greedily. -/
def searchHttpsAux : List Char → Option String
  | [] => none
  | c :: cs =>
    if ("https://".data).isPrefixOf (c :: cs) then
      match ((c :: cs).drop 8).takeWhile (fun ch => !isPySpace ch) with
      | [] => searchHttpsAux cs
      | r :: rs => some ⟨"https://".data ++ r :: rs⟩
    else searchHttpsAux cs

/-- `re.search(r'https://[^\s]+', s)` on a string. -/
def searchHttps (s : String) : Option String := searchHttpsAux s.data

/-- The `JobListing` record (lines 78-86 of `main.py`): the eight fields of
one scraped posting, as built by `parse_jobs`. -/
structure JobListing where
  title : String
  type : String
  salary : String
  company : String
  company_image : String
  posted_date : String
  location : String
  posting_url : String
  deriving DecidableEq, Repr

/-- Class string of the listing-card marker (line 114 of `main.py`). -/
def cardClass : String := "mb-6 w-full rounded border border-gray-400 bg-white"

/-- Class string of the title / posting-url link (lines 119-120). -/
def titleClass : String := "mr-2 text-sm font-semibold text-brand-burgandy hover:underline"

/-- Class string of the employment-type badge (lines 121-122). -/
def typeClass : String :=
  "whitespace-nowrap rounded-lg bg-accent-yellow-100 px-2 py-1 text-[10px] font-semibold text-neutral-800"

/-- Class string of the metadata rows (salary first, location second). -/
def metaRowClass : String := "flex items-center text-neutral-500"

/-- Class string of the metadata rows' trailing span. -/
def metaSpanClass : String := "pl-1 text-xs"

/-- Class string of the company heading (line 125). -/
def companyClass : String := "inline text-md font-semibold"

/-- Class string of the posted-date span (line 128). -/
def dateClass : String :=
  "text-xs lowercase text-dark-a mr-2 hidden flex-wrap content-center md:flex"

/-- `found.text` where `found` may be `None`: `None.text` raises
`AttributeError`. -/
def textOfFound : Option Node → Except PyError String
  | none => .error .attributeError
  | some n => .ok (texts n)

/-- `found[key]` where `found` may be `None`: `None[key]` raises `TypeError`,
a missing key raises `KeyError`. -/
def attrSubscript : Option Node → String → Except PyError String
  | none, _ => .error .typeError
  | some n, k =>
    match attrOf n k with
    | none => .error .keyError
    | some v => .ok v

/-- Line 127 of `main.py`:
`re.search(r'https://[^\s]+', company_image).group(0) if company_image else "N/A"` —
the placeholder appears only for a falsy (empty) `src`; a non-empty `src`
with no `https://` match makes `.group(0)` raise `AttributeError`. -/
def imageUrl (src : String) : Except PyError String :=
  if src == "" then .ok "N/A"
  else
    match searchHttps src with
    | some m => .ok m
    | none => .error .attributeError

/-- Lines 130-134 of `main.py`: the location is the second
`flex items-center text-neutral-500` row's span, sanitized, when a second
row exists (`len(location_elements) > 1`), else the placeholder. -/
def locationField (el : Node) : Except PyError String :=
  match (findAllFrom (matchesTC "div" metaRowClass) el)[1]? with
  | none => .ok "N/A"
  | some row2 =>
    match findFirst (matchesTC "span" metaSpanClass) row2 with
    | none => .error .attributeError
    | some sp => sanitize_string (pyStripS (texts sp))

/-- Lines 117-138 of `main.py`: extraction of one listing record from one
card fragment, with each field read in source order; any raised error
propagates. -/
def parseJob (today : Int) (el : Node) : Except PyError JobListing :=
  match findFirst (matchesTC "a" titleClass) el with
  | none => .error .attributeError
  | some titleEl =>
  match findFirst (matchesTC "span" typeClass) el with
  | none => .error .attributeError
  | some typeEl =>
  match findFirst (matchesTC "div" metaRowClass) el with
  | none => .error .attributeError
  | some salRow =>
  match findFirst (matchesTC "span" metaSpanClass) salRow with
  | none => .error .attributeError
  | some salSpan =>
  match sanitize_string (pyStripS (texts salSpan)) with
  | .error e => .error e
  | .ok salary =>
  match findFirst (matchesTC "h2" companyClass) el with
  | none => .error .attributeError
  | some companyEl =>
  match attrSubscript (findFirst (matchesTag "img") el) "src" with
  | .error e => .error e
  | .ok src =>
  match imageUrl src with
  | .error e => .error e
  | .ok company_image =>
  match findFirst (matchesTC "span" dateClass) el with
  | none => .error .attributeError
  | some dateEl =>
  match parse_relative_date (pyStripS (texts dateEl)) today with
  | .error e => .error e
  | .ok posted_date =>
  match locationField el with
  | .error e => .error e
  | .ok location =>
  match attrSubscript (findFirst (matchesTC "a" titleClass) el) "href" with
  | .error e => .error e
  | .ok href =>
  .ok { title := pyStripS (texts titleEl), type := pyStripS (texts typeEl),
        salary := salary, company := pyStripS (texts companyEl),
        company_image := company_image, posted_date := posted_date,
        location := location,
        posting_url := if href == "" then "N/A" else "https://wellfound.com" ++ href }

/-- The `for job_element in job_elements` loop of `parse_jobs`: records are
appended in document order; a raised error aborts the whole extraction. -/
def parseJobsLoop (today : Int) : List Node → Except PyError (List JobListing)
  | [] => .ok []
  | el :: rest =>
    match parseJob today el with
    | .error e => .error e
    | .ok j =>
      match parseJobsLoop today rest with
      | .error e => .error e
      | .ok js => .ok (j :: js)

/-- Lines 110-140 of `main.py` (`parse_jobs`), from the already-parsed
document: no listing-card fragment yields an empty list (lines 114-115);
otherwise every card fragment is extracted in order. -/
def parse_jobs (today : Int) (soup : Node) : Except PyError (List JobListing) :=
  match findFirst (matchesTC "div" cardClass) soup with
  | none => .ok []
  | some _ => parseJobsLoop today (findAllFrom (matchesTC "div" cardClass) soup)

/-- A complete listing card, with every marker present and well-formed. -/
def fullCard : Node :=
  .elem "div" cardClass [] (nodes
    [.elem "a" titleClass [("href", "/jobs/123-backend-engineer")]
       (nodes [.text "Backend Engineer"]),
     .elem "span" typeClass [] (nodes [.text "Full-time"]),
     .elem "div" metaRowClass [] (nodes
       [.elem "span" metaSpanClass [] (nodes [.text "$100k"])]),
     .elem "h2" companyClass [] (nodes [.text "Acme"]),
     .elem "img" "" [("src", "https://img.example/logo.png")] (nodes []),
     .elem "span" dateClass [] (nodes [.text "3 days ago"]),
     .elem "div" metaRowClass [] (nodes
       [.elem "span" metaSpanClass [] (nodes [.text "Austin"])])])

/-- The record extracted from `fullCard` at reference day 2024-01-10. -/
def fullJob : JobListing :=
  { title := "Backend Engineer", type := "Full-time", salary := "$100k",
    company := "Acme", company_image := "https://img.example/logo.png",
    posted_date := "2024-01-07", location := "Austin",
    posting_url := "https://wellfound.com/jobs/123-backend-engineer" }

/-- A document with one full card. -/
def fullDoc : Node := .elem "[document]" "" [] (nodes [fullCard])

/-- A document with no listing-card fragment at all. -/
def emptyDoc : Node :=
  .elem "[document]" "" [] (nodes [.elem "div" "unrelated" [] (nodes [.text "no results"])])

/-- `fullCard` without any image element (every mandatory marker present). -/
def cardNoImg : Node :=
  .elem "div" cardClass [] (nodes
    [.elem "a" titleClass [("href", "/jobs/123-backend-engineer")]
       (nodes [.text "Backend Engineer"]),
     .elem "span" typeClass [] (nodes [.text "Full-time"]),
     .elem "div" metaRowClass [] (nodes
       [.elem "span" metaSpanClass [] (nodes [.text "$100k"])]),
     .elem "h2" companyClass [] (nodes [.text "Acme"]),
     .elem "span" dateClass [] (nodes [.text "3 days ago"]),
     .elem "div" metaRowClass [] (nodes
       [.elem "span" metaSpanClass [] (nodes [.text "Austin"])])])

/-- A document with `cardNoImg` as its only card. -/
def docNoImg : Node := .elem "[document]" "" [] (nodes [cardNoImg])

/-- `fullCard` without the title link (the mandatory title marker). -/
def cardNoTitle : Node :=
  .elem "div" cardClass [] (nodes
    [.elem "span" typeClass [] (nodes [.text "Full-time"]),
     .elem "div" metaRowClass [] (nodes
       [.elem "span" metaSpanClass [] (nodes [.text "$100k"])]),
     .elem "h2" companyClass [] (nodes [.text "Acme"]),
     .elem "img" "" [("src", "https://img.example/logo.png")] (nodes []),
     .elem "span" dateClass [] (nodes [.text "3 days ago"]),
     .elem "div" metaRowClass [] (nodes
       [.elem "span" metaSpanClass [] (nodes [.text "Austin"])])])

/-- A document with `cardNoTitle` as its only card. -/
def docNoTitle : Node := .elem "[document]" "" [] (nodes [cardNoTitle])

/-- `fullCard` without the second metadata row (no location row). -/
def cardNoSecondRow : Node :=
  .elem "div" cardClass [] (nodes
    [.elem "a" titleClass [("href", "/jobs/123-backend-engineer")]
       (nodes [.text "Backend Engineer"]),
     .elem "span" typeClass [] (nodes [.text "Full-time"]),
     .elem "div" metaRowClass [] (nodes
       [.elem "span" metaSpanClass [] (nodes [.text "$100k"])]),
     .elem "h2" companyClass [] (nodes [.text "Acme"]),
     .elem "img" "" [("src", "https://img.example/logo.png")] (nodes []),
     .elem "span" dateClass [] (nodes [.text "3 days ago"])])

/-- The record extracted from `cardNoSecondRow`: location placeholder. -/
def jobNoSecondRow : JobListing := { fullJob with location := "N/A" }

/-- A document with `cardNoSecondRow` as its only card. -/
def docNoSecondRow : Node := .elem "[document]" "" [] (nodes [cardNoSecondRow])

/-- `fullCard` with a relative (non-https) image source. -/
def cardRelImg : Node :=
  .elem "div" cardClass [] (nodes
    [.elem "a" titleClass [("href", "/jobs/123-backend-engineer")]
       (nodes [.text "Backend Engineer"]),
     .elem "span" typeClass [] (nodes [.text "Full-time"]),
     .elem "div" metaRowClass [] (nodes
       [.elem "span" metaSpanClass [] (nodes [.text "$100k"])]),
     .elem "h2" companyClass [] (nodes [.text "Acme"]),
     .elem "img" "" [("src", "/logo.png")] (nodes []),
     .elem "span" dateClass [] (nodes [.text "3 days ago"]),
     .elem "div" metaRowClass [] (nodes
       [.elem "span" metaSpanClass [] (nodes [.text "Austin"])])])

/-- A document with `cardRelImg` as its only card. -/
def docRelImg : Node := .elem "[document]" "" [] (nodes [cardRelImg])

/-- `fullCard` with empty (falsy) `src` and `href` attribute values. -/
def cardEmptyAttrs : Node :=
  .elem "div" cardClass [] (nodes
    [.elem "a" titleClass [("href", "")] (nodes [.text "Backend Engineer"]),
     .elem "span" typeClass [] (nodes [.text "Full-time"]),
     .elem "div" metaRowClass [] (nodes
       [.elem "span" metaSpanClass [] (nodes [.text "$100k"])]),
     .elem "h2" companyClass [] (nodes [.text "Acme"]),
     .elem "img" "" [("src", "")] (nodes []),
     .elem "span" dateClass [] (nodes [.text "3 days ago"]),
     .elem "div" metaRowClass [] (nodes
       [.elem "span" metaSpanClass [] (nodes [.text "Austin"])])])

/-- The record extracted from `cardEmptyAttrs`: both URL placeholders. -/
def jobEmptyAttrs : JobListing :=
  { fullJob with company_image := "N/A", posting_url := "N/A" }

/-- `fullCard` with a title holding a non-ASCII letter and a double space. -/
def cardAccent : Node :=
  .elem "div" cardClass [] (nodes
    [.elem "a" titleClass [("href", "/jobs/123-backend-engineer")]
       (nodes [.text "Café  Dev"]),
     .elem "span" typeClass [] (nodes [.text "Full-time"]),
     .elem "div" metaRowClass [] (nodes
       [.elem "span" metaSpanClass [] (nodes [.text "$100k"])]),
     .elem "h2" companyClass [] (nodes [.text "Acme"]),
     .elem "img" "" [("src", "https://img.example/logo.png")] (nodes []),
     .elem "span" dateClass [] (nodes [.text "3 days ago"]),
     .elem "div" metaRowClass [] (nodes
       [.elem "span" metaSpanClass [] (nodes [.text "Austin"])])])

/-- The record extracted from `cardAccent`: the title keeps the non-ASCII
letter and the interior double space. -/
def jobAccent : JobListing := { fullJob with title := "Café  Dev" }

/-! ## Claim C8: catalog validation -/

/-- C8: a title (resp. location) label present in its mapping is accepted by
the validator and has a slug; a label absent from the mapping is rejected
with the error message that joins every valid label, and each valid label
occurs in that message. -/
theorem catalog_validation (v l : String) :
    (∀ s, dictGet TITLE v = some s → validate_job_title v = .ok v) ∧
    (dictGet TITLE v = none →
      validate_job_title v =
        .error ("Invalid job title. Must be one of: " ++ joinKeys TITLE)) ∧
    (∀ s, dictGet LOCATION l = some s → validate_job_location (some l) = .ok (some l)) ∧
    (dictGet LOCATION l = none →
      validate_job_location (some l) =
        .error ("Invalid location. Must be one of: " ++ joinKeys LOCATION)) ∧
    ((TITLE.map (fun p => p.1)).all
      (fun k => strContains ("Invalid job title. Must be one of: " ++ joinKeys TITLE) k)
        = true) ∧
    ((LOCATION.map (fun p => p.1)).all
      (fun k => strContains ("Invalid location. Must be one of: " ++ joinKeys LOCATION) k)
        = true) := by
  refine ⟨fun s hs => ?_, fun hn => ?_, fun s hs => ?_, fun hn => ?_, by decide, by decide⟩
  · simp [validate_job_title, hs]
  · simp [validate_job_title, hn]
  · simp [validate_job_location, hs]
  · simp [validate_job_location, hn]

/-- Witness for C8 at concrete labels: "Backend Engineer" and "Austin" are
accepted, "Chef" and "Paris" are rejected with the enumerating message. -/
theorem catalog_validation_witness :
    validate_job_title "Backend Engineer" = .ok "Backend Engineer" ∧
    validate_job_location (some "Austin") = .ok (some "Austin") ∧
    validate_job_title "Chef" =
      .error ("Invalid job title. Must be one of: " ++ joinKeys TITLE) ∧
    validate_job_location (some "Paris") =
      .error ("Invalid location. Must be one of: " ++ joinKeys LOCATION) :=
  ⟨(catalog_validation "Backend Engineer" "Austin").1 "backend-engineer" (by decide),
   (catalog_validation "Backend Engineer" "Austin").2.2.1 "austin" (by decide),
   (catalog_validation "Chef" "Paris").2.1 (by decide),
   (catalog_validation "Chef" "Paris").2.2.2.1 (by decide)⟩

/-! ## Claim C9: URL construction -/

/-- C9: for a valid title label the URL is base + "/role/" + title slug
without a location, and base + "/role/l/" + title slug + "/" + location slug
with a valid location label; in particular for "Software Engineer" and
"Austin". -/
theorem build_url (t ts l ls : String) :
    (dictGet TITLE t = some ts →
      searchURL t none = some ("https://wellfound.com/role/" ++ ts)) ∧
    (dictGet TITLE t = some ts → dictGet LOCATION l = some ls →
      searchURL t (some l) =
        some ("https://wellfound.com/role/l/" ++ ts ++ "/" ++ ls)) ∧
    searchURL "Software Engineer" none =
      some "https://wellfound.com/role/software-engineer" ∧
    searchURL "Software Engineer" (some "Austin") =
      some "https://wellfound.com/role/l/software-engineer/austin" := by
  refine ⟨fun ht => ?_, fun ht hl => ?_, by decide, by decide⟩
  · simp [searchURL, ht]
  · simp [searchURL, ht, hl]

/-- Witness for C9 at "Backend Engineer" and "Chicago". -/
theorem build_url_witness :
    searchURL "Backend Engineer" none =
      some "https://wellfound.com/role/backend-engineer" ∧
    searchURL "Backend Engineer" (some "Chicago") =
      some "https://wellfound.com/role/l/backend-engineer/chicago" :=
  ⟨(build_url "Backend Engineer" "backend-engineer" "Chicago" "chicago").1 (by decide),
   (build_url "Backend Engineer" "backend-engineer" "Chicago" "chicago").2.1
     (by decide) (by decide)⟩

/-! ## Claim C3: relative-date arithmetic -/

/-- C3: a phrase holding a unit keyword (day before week before month before
year, literal case-sensitive substrings) and an integer N maps to the
reference day minus N, N*7, N*30 or N*365 days, rendered as YYYY-MM-DD; the
spec's three examples evaluate as stated. -/
theorem date_normalizer_units (s : String) (t : Int) (n : Nat) :
    (strContains s "day" = true → firstInt s.data = some n →
      parse_relative_date s t = .ok (isoFormat (t - n))) ∧
    (strContains s "day" = false → strContains s "week" = true →
      firstInt s.data = some n →
      parse_relative_date s t = .ok (isoFormat (t - n * 7))) ∧
    (strContains s "day" = false → strContains s "week" = false →
      strContains s "month" = true → firstInt s.data = some n →
      parse_relative_date s t = .ok (isoFormat (t - n * 30))) ∧
    (strContains s "day" = false → strContains s "week" = false →
      strContains s "month" = false → strContains s "year" = true →
      firstInt s.data = some n →
      parse_relative_date s t = .ok (isoFormat (t - n * 365))) ∧
    parse_relative_date "3 days ago" d20240110 = .ok "2024-01-07" ∧
    parse_relative_date "2 weeks ago" d20240110 = .ok "2023-12-27" ∧
    parse_relative_date "1 month ago" d20240110 = .ok "2023-12-11" := by
  refine ⟨fun hd hn => ?_, fun hd hw hn => ?_, fun hd hw hm hn => ?_,
    fun hd hw hm hy hn => ?_, by decide, by decide, by decide⟩
  · simp [parse_relative_date, hd, hn]
  · simp [parse_relative_date, hd, hw, hn]
  · simp [parse_relative_date, hd, hw, hm, hn]
  · simp [parse_relative_date, hd, hw, hm, hy, hn]

/-- Witness for C3 at the phrase "2 weeks ago" and reference day 2024-01-10. -/
theorem date_normalizer_units_witness :
    parse_relative_date "2 weeks ago" d20240110 = .ok (isoFormat (d20240110 - 2 * 7)) :=
  (date_normalizer_units "2 weeks ago" d20240110 2).2.1 (by decide) (by decide)
    (by decide)

/-! ## Claim C4: totality of the date normalizer -/

/-- Counterexample to C4: the phrase "someday" holds the unit keyword "day"
and no integer, and `parse_relative_date` raises `AttributeError`
(`re.search(r'\d+', ...)` is `None` and `.group()` fails) instead of
returning the reference date. -/
theorem date_normalizer_not_total :
    parse_relative_date "someday" d20240110 = .error .attributeError ∧
    strContains "someday" "day" = true ∧ firstInt "someday".data = none := by
  refine ⟨by decide, by decide, by decide⟩

/-- C4 as amended: the normalizer returns the reference day whenever no unit
keyword occurs in the phrase; but when a unit keyword occurs and the phrase
holds no integer, it raises `AttributeError` instead of returning the
reference date. -/
theorem date_normalizer_fallback (s : String) (t : Int) :
    (strContains s "day" = false → strContains s "week" = false →
      strContains s "month" = false → strContains s "year" = false →
      parse_relative_date s t = .ok (isoFormat t)) ∧
    (firstInt s.data = none →
      (strContains s "day" = true ∨ strContains s "week" = true ∨
        strContains s "month" = true ∨ strContains s "year" = true) →
      parse_relative_date s t = .error .attributeError) := by
  constructor
  · intro hd hw hm hy
    simp [parse_relative_date, hd, hw, hm, hy]
  · intro hn hu
    unfold parse_relative_date
    rcases h1 : strContains s "day" with _ | _ <;>
      rcases h2 : strContains s "week" with _ | _ <;>
        rcases h3 : strContains s "month" with _ | _ <;>
          rcases h4 : strContains s "year" with _ | _ <;>
            simp_all [hn]

/-- Witness for C4 (amended) at "no relation" and "someday". -/
theorem date_normalizer_fallback_witness :
    parse_relative_date "no relation" d20240110 = .ok (isoFormat d20240110) ∧
    parse_relative_date "someday" d20240110 = .error .attributeError :=
  ⟨(date_normalizer_fallback "no relation" d20240110).1 (by decide) (by decide)
      (by decide) (by decide),
   (date_normalizer_fallback "someday" d20240110).2 (by decide) (.inl (by decide))⟩

/-! ## Structural facts about the sanitizer stages (for claims C5-C7) -/

/-- No two adjacent whitespace characters. -/
def noWsPair (l : List Char) : Prop :=
  List.Chain' (fun a b => isPySpace a = false ∨ isPySpace b = false) l

/-- Every character of `subWs l` is a character of `l` or the space that a
whitespace run collapses to. -/
theorem mem_subWs {c : Char} {l : List Char} (h : c ∈ subWs l) : c ∈ l ∨ c = ' ' := by
  induction l with
  | nil => simp [subWs] at h
  | cons c1 tl ih =>
    cases tl with
    | nil =>
      by_cases hw : isPySpace c1 = true
      · simp [subWs, hw] at h
        exact .inr h
      · simp [subWs, hw] at h
        exact .inl (by simp [h])
    | cons c2 cs =>
      simp only [subWs] at h
      split at h
      · rcases ih h with h1 | h1
        · exact .inl (List.mem_cons_of_mem _ h1)
        · exact .inr h1
      · rcases List.mem_cons.mp h with h1 | h1
        · by_cases hw : isPySpace c1 = true
          · rw [if_pos hw] at h1
            exact .inr h1
          · rw [if_neg hw] at h1
            exact .inl (h1 ▸ List.mem_cons_self c1 (c2 :: cs))
        · rcases ih h1 with h2 | h2
          · exact .inl (List.mem_cons_of_mem _ h2)
          · exact .inr h2

/-- Every whitespace character of `subWs l` is the plain space. -/
theorem subWs_ws_eq_space {c : Char} {l : List Char} (hm : c ∈ subWs l)
    (hw : isPySpace c = true) : c = ' ' := by
  induction l with
  | nil => simp [subWs] at hm
  | cons c1 tl ih =>
    cases tl with
    | nil =>
      by_cases h1 : isPySpace c1 = true
      · simpa [subWs, h1] using hm
      · simp [subWs, h1] at hm
        rw [hm] at hw
        exact absurd hw (by simp [h1])
    | cons c2 cs =>
      simp only [subWs] at hm
      split at hm
      · exact ih hm
      · rcases List.mem_cons.mp hm with h1 | h1
        · by_cases h2 : isPySpace c1 = true
          · rwa [if_pos h2] at h1
          · rw [if_neg h2] at h1
            rw [h1] at hw
            exact absurd hw (by simp [h2])
        · exact ih h1

/-- The head of `subWs` on a list starting with whitespace is the space. -/
theorem subWs_head_ws {c : Char} {l : List Char} (hw : isPySpace c = true) :
    (subWs (c :: l)).head? = some ' ' := by
  induction l generalizing c with
  | nil => simp [subWs, hw]
  | cons c2 cs ih =>
    by_cases h2 : isPySpace c2 = true
    · rw [show subWs (c :: c2 :: cs) = subWs (c2 :: cs) by simp [subWs, hw, h2]]
      exact ih h2
    · rw [show subWs (c :: c2 :: cs) = ' ' :: subWs (c2 :: cs) by simp [subWs, hw, h2]]
      rfl

/-- The head of `subWs` on a list starting with non-whitespace is that
character. -/
theorem subWs_head_nws {c : Char} {l : List Char} (hw : isPySpace c = false) :
    (subWs (c :: l)).head? = some c := by
  cases l with
  | nil => simp [subWs, hw]
  | cons c2 cs => simp [subWs, hw]

/-- `subWs` never produces two adjacent whitespace characters. -/
theorem noWsPair_subWs (l : List Char) : noWsPair (subWs l) := by
  induction l with
  | nil => simp [subWs, noWsPair]
  | cons c1 tl ih =>
    cases tl with
    | nil =>
      by_cases hw : isPySpace c1 = true
      · simp [subWs, hw, noWsPair]
      · simp [subWs, hw, noWsPair]
    | cons c2 cs =>
      by_cases hw : (isPySpace c1 && isPySpace c2) = true
      · rw [noWsPair, show subWs (c1 :: c2 :: cs) = subWs (c2 :: cs) by
          simp [subWs, hw]]
        exact ih
      · rw [noWsPair, show subWs (c1 :: c2 :: cs) =
            (if isPySpace c1 then ' ' else c1) :: subWs (c2 :: cs) by
          simp only [subWs, if_neg hw]]
        rw [List.chain'_cons']
        refine ⟨?_, ih⟩
        intro y hy
        have hor : isPySpace c1 = false ∨ isPySpace c2 = false := by
          rcases h1 : isPySpace c1 with _ | _
          · exact .inl rfl
          · rcases h2 : isPySpace c2 with _ | _
            · exact .inr rfl
            · exact absurd (by simp [h1, h2]) hw
        rcases hor with h1 | h1
        · rw [if_neg (by simp [h1])]
          exact .inl h1
        · rw [subWs_head_nws h1] at hy
          cases hy
          exact .inr h1

/-- `subWs` is the identity on lists whose whitespace is the plain space and
never adjacent. -/
theorem subWs_eq_self {l : List Char} (hsp : ∀ c ∈ l, isPySpace c = true → c = ' ')
    (hnp : noWsPair l) : subWs l = l := by
  induction l with
  | nil => simp [subWs]
  | cons c1 tl ih =>
    cases tl with
    | nil =>
      by_cases hw : isPySpace c1 = true
      · have : c1 = ' ' := hsp c1 (List.mem_cons_self _ _) hw
        simp [subWs, hw, this]
      · simp [subWs, hw]
    | cons c2 cs =>
      have hpair : isPySpace c1 = false ∨ isPySpace c2 = false :=
        (List.chain'_cons.mp hnp).1
      have hno : ¬((isPySpace c1 && isPySpace c2) = true) := by
        rcases hpair with h | h <;> simp [h]
      rw [show subWs (c1 :: c2 :: cs) =
            (if isPySpace c1 then ' ' else c1) :: subWs (c2 :: cs) by
          simp only [subWs, if_neg hno]]
      have htl : subWs (c2 :: cs) = c2 :: cs :=
        ih (fun c hc hw => hsp c (List.mem_cons_of_mem _ hc) hw)
          (List.chain'_cons.mp hnp).2
      rw [htl]
      by_cases hw : isPySpace c1 = true
      · rw [if_pos hw, hsp c1 (List.mem_cons_self _ _) hw]
      · rw [if_neg hw]

/-- The head of `dropWhile p` never satisfies `p`. -/
theorem head_dropWhile_not {p : Char → Bool} {l : List Char} {a : Char}
    (h : (l.dropWhile p).head? = some a) : p a = false := by
  induction l with
  | nil => simp [List.dropWhile] at h
  | cons c cs ih =>
    by_cases hc : p c = true
    · rw [List.dropWhile_cons, if_pos hc] at h
      exact ih h
    · rw [List.dropWhile_cons, if_neg hc] at h
      cases h
      exact Bool.not_eq_true _ |>.mp hc

/-- `dropWhile p` is the identity when the head does not satisfy `p`. -/
theorem dropWhile_eq_self_of_head {p : Char → Bool} {l : List Char}
    (h : ∀ a ∈ l.head?, p a = false) : l.dropWhile p = l := by
  cases l with
  | nil => rfl
  | cons c cs =>
    have : p c = false := h c rfl
    rw [List.dropWhile_cons, if_neg (by simp [this])]

/-- Characters of `pyStrip l` are characters of `l`. -/
theorem mem_pyStrip {c : Char} {l : List Char} (h : c ∈ pyStrip l) : c ∈ l := by
  rw [pyStrip] at h
  rw [List.mem_reverse] at h
  have h1 := (List.dropWhile_suffix isPySpace).subset h
  rw [List.mem_reverse] at h1
  exact (List.dropWhile_suffix isPySpace).subset h1

/-- `pyStrip` preserves the absence of adjacent whitespace. -/
theorem noWsPair_pyStrip {l : List Char} (h : noWsPair l) : noWsPair (pyStrip l) := by
  rw [noWsPair] at h ⊢
  rw [pyStrip]
  rw [List.chain'_reverse]
  have h1 : List.Chain' (fun a b => isPySpace a = false ∨ isPySpace b = false)
      ((l.dropWhile isPySpace).reverse) := by
    rw [List.chain'_reverse]
    exact (h.suffix (List.dropWhile_suffix isPySpace)).imp (fun a b hab => hab.symm)
  exact ((h1.suffix (List.dropWhile_suffix isPySpace)).imp (fun a b hab => hab.symm))

/-- The last element of `dropWhile p l`, when it is nonempty, is the last
element of `l`. -/
theorem getLast_dropWhile_of_ne {p : Char → Bool} {l : List Char}
    (h : l.dropWhile p ≠ []) : (l.dropWhile p).getLast? = l.getLast? := by
  obtain ⟨pre, hpre⟩ := List.dropWhile_suffix (l := l) p
  conv_rhs => rw [← hpre]
  exact (List.getLast?_append_of_ne_nil pre h).symm

/-- The head of `pyStrip l` is not whitespace. -/
theorem pyStrip_head {l : List Char} : ∀ a ∈ (pyStrip l).head?, isPySpace a = false := by
  intro a ha
  rw [pyStrip, List.head?_reverse] at ha
  by_cases hne : (l.dropWhile isPySpace).reverse.dropWhile isPySpace = []
  · rw [hne] at ha
    simp at ha
  · rw [getLast_dropWhile_of_ne hne, ← List.head?_reverse, List.reverse_reverse] at ha
    exact head_dropWhile_not ha

/-- The last character of `pyStrip l` is not whitespace. -/
theorem pyStrip_getLast {l : List Char} :
    ∀ a ∈ (pyStrip l).getLast?, isPySpace a = false := by
  intro a ha
  rw [pyStrip, ← List.head?_reverse, List.reverse_reverse] at ha
  exact head_dropWhile_not ha

/-- `pyStrip` is the identity when neither end is whitespace. -/
theorem pyStrip_eq_self {l : List Char} (h1 : ∀ a ∈ l.head?, isPySpace a = false)
    (h2 : ∀ a ∈ l.getLast?, isPySpace a = false) : pyStrip l = l := by
  rw [pyStrip, dropWhile_eq_self_of_head h1]
  rw [dropWhile_eq_self_of_head (by rwa [List.head?_reverse]), List.reverse_reverse]

/-- `utf8Encode` distributes over cons. -/
theorem utf8Encode_cons (c : Char) (cs : List Char) :
    utf8Encode (c :: cs) = utf8EncodeChar c ++ utf8Encode cs := by
  simp [utf8Encode]

/-- On ASCII characters UTF-8 is the identity embedding of code points. -/
theorem utf8Encode_ascii {l : List Char} (h : ∀ c ∈ l, c.toNat < 0x80) :
    utf8Encode l = l.map Char.toNat := by
  induction l with
  | nil => rfl
  | cons c cs ih =>
    rw [utf8Encode_cons, List.map_cons,
      show utf8EncodeChar c = [c.toNat] by
        simp [utf8EncodeChar, h c (List.mem_cons_self _ _)],
      ih (fun d hd => h d (List.mem_cons_of_mem _ hd))]
    rfl

/-- A character other than the backslash never contributes the byte 0x5C:
its ASCII byte is its own (non-0x5C) code point, and every byte of a
multi-byte sequence is at least 0x80. -/
theorem utf8EncodeChar_ne_backslash {c : Char} (hc : c ≠ '\\') :
    ∀ b ∈ utf8EncodeChar c, b ≠ 0x5C := by
  intro b hb hb92
  rw [utf8EncodeChar] at hb
  split_ifs at hb with h1 h2 h3
  · simp at hb
    apply hc
    have hcn : c.toNat = 0x5C := by omega
    have h5 := Char.ofNat_toNat c
    rw [hcn] at h5
    rw [← h5]
  · simp at hb
    rcases hb with hb | hb <;> omega
  · simp at hb
    rcases hb with hb | hb | hb <;> omega
  · simp at hb
    rcases hb with hb | hb | hb | hb <;> omega

/-- A string without a backslash UTF-8-encodes to bytes without 0x5C. -/
theorem utf8_no_backslash {l : List Char} (h : '\\' ∉ l) :
    ∀ b ∈ utf8Encode l, b ≠ 0x5C := by
  intro b hb
  rw [utf8Encode, List.mem_flatten] at hb
  obtain ⟨bl, hbl, hbb⟩ := hb
  rw [List.mem_map] at hbl
  obtain ⟨c, hc, hcl⟩ := hbl
  subst hcl
  exact utf8EncodeChar_ne_backslash (fun he => h (he ▸ hc)) b hbb

/-- Without the byte 0x5C the `unicode_escape` decoder is the Latin-1
reading of each byte. -/
theorem uedAux_no_backslash : ∀ (n : Nat) (bs : List Nat), bs.length ≤ n →
    (∀ b ∈ bs, b ≠ 0x5C) → uedAux n bs = .ok (bs.map Char.ofNat)
  | 0, [], _, _ => rfl
  | _ + 1, [], _, _ => rfl
  | 0, b :: bs, h, _ => by simp at h
  | n + 1, b :: bs, h, hnb => by
    have hb : (b == 0x5C) = false := by
      simp [hnb b (List.mem_cons_self _ _)]
    rw [uedAux.eq_def]
    simp only [hb, Bool.false_eq_true, if_false]
    rw [uedAux_no_backslash n bs (by simpa using h)
      (fun x hx => hnb x (List.mem_cons_of_mem _ hx))]
    rfl

/-- A byte other than 0x5C never reads back as the backslash character. -/
theorem ofNat_ne_backslash {b : Nat} (h : b ≠ 0x5C) : Char.ofNat b ≠ '\\' := by
  by_cases hv : b.isValidChar
  · intro hc
    have hbn : (Char.ofNat b).toNat = b := by
      simp [Char.ofNat, hv, Char.ofNatAux, Char.toNat, UInt32.toNat, BitVec.toNat_ofNatLt]
    rw [hc] at hbn
    exact h (by simpa using hbn.symm)
  · intro hc
    have h0 : (Char.ofNat b).toNat = 0 := by
      unfold Char.ofNat
      rw [dif_neg hv]
      rfl
    rw [hc] at h0
    exact absurd h0 (by decide)

/-- Reading back the code points of a string is the identity. -/
theorem map_ofNat_toNat (l : List Char) : (l.map Char.toNat).map Char.ofNat = l := by
  induction l with
  | nil => rfl
  | cons c cs ih => rw [List.map_cons, List.map_cons, Char.ofNat_toNat, ih]

/-- Printable ASCII code points are below 0x80. -/
theorem printable_lt {c : Char} (h : isPrintableAscii c = true) : c.toNat < 0x80 := by
  rw [isPrintableAscii, Bool.and_eq_true, decide_eq_true_eq, decide_eq_true_eq] at h
  omega

/-- On a successful escape decode, the sanitizer is the filter and collapse
of the decoded text. -/
theorem sanitize_string_ok_of_decode {s : String} {d : List Char}
    (h : unicodeEscapeDecode (utf8Encode s.data) = .ok d) :
    sanitize_string s = .ok ⟨pyStrip (subWs (d.filter isPrintableAscii))⟩ := by
  rw [sanitize_string, h]

/-! ## Claim C5: the three sanitizer stages and the spec's example -/

/-- Counterexample to C5's example: on `"Senior Engineer   \n"` (with
literal backslash escapes) the sanitizer yields `"SeniorEngineer"`, not
`"Senior Engineer"`: the escape decodes to a non-breaking space, which the
ASCII filter removes *before* whitespace collapsing, leaving no space
between the words. -/
theorem sanitize_example_value :
    sanitize_string "Senior\\u00a0Engineer   \\n" = .ok "SeniorEngineer" ∧
    ("SeniorEngineer" : String) ≠ "Senior Engineer" := by
  exact ⟨by decide, by decide⟩

/-- C5 as amended: the sanitizer is exactly the composition, in order, of
escape decoding, the printable-ASCII filter, and whitespace collapsing plus
trimming; the spec's example yields "SeniorEngineer" (not "Senior
Engineer"). -/
theorem sanitize_steps (s : String) :
    sanitize_string s =
      (unicodeEscapeDecode (utf8Encode s.data)).map
        (fun d => (⟨pyStrip (subWs (d.filter isPrintableAscii))⟩ : String)) ∧
    sanitize_string "Senior\\u00a0Engineer   \\n" = .ok "SeniorEngineer" := by
  constructor
  · cases h : unicodeEscapeDecode (utf8Encode s.data) with
    | error e => simp [sanitize_string, h, Except.map]
    | ok d => simp [sanitize_string, h, Except.map]
  · decide

/-! ## Claim C6: totality of the sanitizer -/

/-- Counterexample to C6: the one-character string of a single backslash (a
malformed escape) makes `decode('unicode_escape')` raise instead of falling
back; `sanitize_string` propagates the error. -/
theorem sanitize_not_total :
    sanitize_string "\\" = .error .unicodeDecodeError := by decide

/-- C6 as amended: the sanitizer returns a string on every input whose raw
text holds no backslash (so no escape sequence at all); on malformed escape
sequences such as a lone trailing backslash it raises `UnicodeDecodeError`
rather than falling back to the original string. -/
theorem sanitize_total_no_backslash (s : String) (h : '\\' ∉ s.data) :
    ∃ y, sanitize_string s = .ok y := by
  have hd : unicodeEscapeDecode (utf8Encode s.data) =
      .ok ((utf8Encode s.data).map Char.ofNat) := by
    unfold unicodeEscapeDecode
    exact uedAux_no_backslash _ _ le_rfl (utf8_no_backslash h)
  exact ⟨_, sanitize_string_ok_of_decode hd⟩

/-- Witness for C6 (amended) at the backslash-free input "abc". -/
theorem sanitize_total_no_backslash_witness :
    '\\' ∉ ("abc" : String).data ∧ ∃ y, sanitize_string "abc" = .ok y :=
  ⟨by decide, sanitize_total_no_backslash "abc" (by decide)⟩

/-! ## Claim C7: idempotence of the sanitizer -/

/-- Counterexample to C7: on the three-character input backslash backslash n,
the first pass decodes the escaped backslash and returns the two-character
string backslash n, whose second pass decodes it as a newline and drops it:
`sanitize(sanitize(x))` is the empty string while `sanitize(x)` is not. -/
theorem sanitize_not_idempotent :
    sanitize_string "\\\\n" = .ok "\\n" ∧ sanitize_string "\\n" = .ok "" ∧
    ("" : String) ≠ "\\n" := by
  exact ⟨by decide, by decide, by decide⟩

/-- C7 as amended: idempotence holds on every input whose raw text holds no
backslash (on such inputs the first pass's output is fixed by a second
pass); in general it fails, because a sanitized output may itself hold a
backslash that the next pass reinterprets as an escape. -/
theorem sanitize_idempotent_no_backslash (x y : String) (hb : '\\' ∉ x.data)
    (h : sanitize_string x = .ok y) : sanitize_string y = .ok y := by
  have hdx : unicodeEscapeDecode (utf8Encode x.data) =
      .ok ((utf8Encode x.data).map Char.ofNat) := by
    unfold unicodeEscapeDecode
    exact uedAux_no_backslash _ _ le_rfl (utf8_no_backslash hb)
  rw [sanitize_string_ok_of_decode hdx] at h
  have hd_nb : '\\' ∉ (utf8Encode x.data).map Char.ofNat := by
    intro hm
    rw [List.mem_map] at hm
    obtain ⟨b, hbm, hbe⟩ := hm
    exact ofNat_ne_backslash (utf8_no_backslash hb b hbm) hbe
  set z : List Char := ((utf8Encode x.data).map Char.ofNat).filter isPrintableAscii
    with hz
  have hz_print : ∀ c ∈ z, isPrintableAscii c = true := by
    intro c hc
    rw [hz] at hc
    exact (List.mem_filter.mp hc).2
  have hz_nb : '\\' ∉ z := by
    rw [hz]
    exact fun hm => hd_nb ((List.mem_filter.mp hm).1)
  have hw_print : ∀ c ∈ subWs z, isPrintableAscii c = true := by
    intro c hc
    rcases mem_subWs hc with h1 | h1
    · exact hz_print c h1
    · rw [h1]
      decide
  have hy_print : ∀ c ∈ pyStrip (subWs z), isPrintableAscii c = true :=
    fun c hc => hw_print c (mem_pyStrip hc)
  have hy_nb : '\\' ∉ pyStrip (subWs z) := by
    intro hm
    rcases mem_subWs (mem_pyStrip hm) with h1 | h1
    · exact hz_nb h1
    · exact absurd h1 (by decide)
  have hy_sp : ∀ c ∈ pyStrip (subWs z), isPySpace c = true → c = ' ' :=
    fun c hc hcw => subWs_ws_eq_space (mem_pyStrip hc) hcw
  have hy_np : noWsPair (pyStrip (subWs z)) := noWsPair_pyStrip (noWsPair_subWs z)
  have hy_ascii : ∀ c ∈ pyStrip (subWs z), c.toNat < 0x80 :=
    fun c hc => printable_lt (hy_print c hc)
  have hbytes : ∀ b ∈ (pyStrip (subWs z)).map Char.toNat, b ≠ 0x5C := by
    intro b hbm hb92
    rw [List.mem_map] at hbm
    obtain ⟨c, hcm, hce⟩ := hbm
    apply hy_nb
    have hone := Char.ofNat_toNat c
    rw [hce, hb92] at hone
    rw [show ('\\' : Char) = Char.ofNat 0x5C by decide]
    exact hone ▸ hcm
  have hdec : unicodeEscapeDecode (utf8Encode (pyStrip (subWs z))) =
      .ok (pyStrip (subWs z)) := by
    rw [utf8Encode_ascii hy_ascii]
    unfold unicodeEscapeDecode
    rw [uedAux_no_backslash _ _ le_rfl hbytes, map_ofNat_toNat]
  injection h with h2
  subst h2
  rw [sanitize_string_ok_of_decode (s := ⟨pyStrip (subWs z)⟩) hdec,
    List.filter_eq_self.mpr hy_print, subWs_eq_self hy_sp hy_np,
    pyStrip_eq_self pyStrip_head pyStrip_getLast]

/-- Witness for C7 (amended): sanitizing "a  b" yields "a b", which a second
pass leaves unchanged. -/
theorem sanitize_idempotent_no_backslash_witness :
    '\\' ∉ ("a  b" : String).data ∧ sanitize_string "a b" = .ok "a b" :=
  ⟨by decide, sanitize_idempotent_no_backslash "a  b" "a b" (by decide) (by decide)⟩

/-! ## Inversion facts about the extractor (for claims C1, C2, C10) -/

/-- `found[key]` succeeds exactly on a found node holding the attribute. -/
theorem attrSubscript_ok_inv {o : Option Node} {k v : String}
    (h : attrSubscript o k = .ok v) : ∃ n, o = some n ∧ attrOf n k = some v := by
  cases o with
  | none => cases h
  | some n =>
    refine ⟨n, rfl, ?_⟩
    cases ha : attrOf n k with
    | none =>
      have hstep : attrSubscript (some n) k = .error .keyError := by
        show (match attrOf n k with
          | none => Except.error PyError.keyError
          | some v => Except.ok v) = .error .keyError
        rw [ha]
      rw [hstep] at h
      cases h
    | some v2 =>
      have hstep : attrSubscript (some n) k = .ok v2 := by
        show (match attrOf n k with
          | none => Except.error PyError.keyError
          | some v => Except.ok v) = .ok v2
        rw [ha]
      rw [hstep] at h
      injection h with h
      rw [← h]

/-- The location step yields either the placeholder (no second metadata row)
or the sanitized text of the second row's span. -/
theorem locationField_ok_inv {el : Node} {v : String} (h : locationField el = .ok v) :
    ((findAllFrom (matchesTC "div" metaRowClass) el)[1]? = none ∧ v = "N/A") ∨
    (∃ row2 locSpan, (findAllFrom (matchesTC "div" metaRowClass) el)[1]? = some row2 ∧
      findFirst (matchesTC "span" metaSpanClass) row2 = some locSpan ∧
      sanitize_string (pyStripS (texts locSpan)) = .ok v) := by
  unfold locationField at h
  split at h
  · left
    injection h with h
    exact ⟨by assumption, h.symm⟩
  · right
    rename_i row2 hrow
    split at h
    · cases h
    · rename_i locSpan hspan
      exact ⟨row2, locSpan, hrow, hspan, h⟩

/-- A successful per-fragment extraction implies every structural marker was
found, and determines each field of the record from its marker. -/
theorem parseJob_ok_inv {today : Int} {el : Node} {j : JobListing}
    (h : parseJob today el = .ok j) :
    ∃ titleEl typeEl salRow salSpan companyEl imgEl src dateEl href,
      findFirst (matchesTC "a" titleClass) el = some titleEl ∧
      findFirst (matchesTC "span" typeClass) el = some typeEl ∧
      findFirst (matchesTC "div" metaRowClass) el = some salRow ∧
      findFirst (matchesTC "span" metaSpanClass) salRow = some salSpan ∧
      findFirst (matchesTC "h2" companyClass) el = some companyEl ∧
      findFirst (matchesTag "img") el = some imgEl ∧
      findFirst (matchesTC "span" dateClass) el = some dateEl ∧
      attrOf imgEl "src" = some src ∧
      attrOf titleEl "href" = some href ∧
      j.title = pyStripS (texts titleEl) ∧
      j.type = pyStripS (texts typeEl) ∧
      sanitize_string (pyStripS (texts salSpan)) = .ok j.salary ∧
      j.company = pyStripS (texts companyEl) ∧
      imageUrl src = .ok j.company_image ∧
      parse_relative_date (pyStripS (texts dateEl)) today = .ok j.posted_date ∧
      locationField el = .ok j.location ∧
      j.posting_url = (if href == "" then "N/A" else "https://wellfound.com" ++ href) := by
  unfold parseJob at h
  split at h
  · cases h
  rename_i titleEl hT
  split at h
  · cases h
  rename_i typeEl hTy
  split at h
  · cases h
  rename_i salRow hSR
  split at h
  · cases h
  rename_i salSpan hSS
  split at h
  · cases h
  rename_i salary hSal
  split at h
  · cases h
  rename_i companyEl hC
  split at h
  · cases h
  rename_i src hSrc
  split at h
  · cases h
  rename_i company_image hIU
  split at h
  · cases h
  rename_i dateEl hD
  split at h
  · cases h
  rename_i posted hPD
  split at h
  · cases h
  rename_i location hLoc
  split at h
  · cases h
  rename_i href hHref
  obtain ⟨imgEl, hImg, hSrcAttr⟩ := attrSubscript_ok_inv hSrc
  obtain ⟨linkEl, hLink, hHrefAttr⟩ := attrSubscript_ok_inv hHref
  have hle : linkEl = titleEl := by
    rw [hT] at hLink
    exact (Option.some.inj hLink).symm
  rw [hle] at hHrefAttr
  injection h with h
  subst h
  exact ⟨titleEl, typeEl, salRow, salSpan, companyEl, imgEl, src, dateEl, href,
    hT, hTy, hSR, hSS, hC, hImg, hD, hSrcAttr, hHrefAttr, rfl, rfl, hSal, rfl,
    hIU, hPD, hLoc, rfl⟩

/-- A successful whole-page extraction implies every card fragment extracted
successfully. -/
theorem parseJobsLoop_ok_forall {today : Int} {l : List Node} {js : List JobListing}
    (h : parseJobsLoop today l = .ok js) :
    ∀ el ∈ l, ∃ j, parseJob today el = .ok j := by
  induction l generalizing js with
  | nil => simp
  | cons a as ih =>
    unfold parseJobsLoop at h
    split at h
    · cases h
    rename_i j hj
    split at h
    · cases h
    rename_i js2 hjs
    intro el hel
    rcases List.mem_cons.mp hel with h1 | h1
    · exact ⟨j, h1 ▸ hj⟩
    · exact ih hjs el h1

/-- A successful `parse_jobs` implies every card fragment of the document
extracted successfully. -/
theorem parse_jobs_ok_forall {today : Int} {doc : Node} {jobs : List JobListing}
    (h : parse_jobs today doc = .ok jobs) :
    ∀ frag ∈ findAllFrom (matchesTC "div" cardClass) doc,
      ∃ j, parseJob today frag = .ok j := by
  unfold parse_jobs at h
  split at h
  · rename_i hnone
    intro frag hf
    rw [findFirst, List.head?_eq_none_iff] at hnone
    rw [hnone] at hf
    cases hf
  · exact parseJobsLoop_ok_forall h

/-! ## Claim C1: failure semantics of the extractor -/

/-- Counterexample to C1's "fails exactly when": `cardNoImg` holds every
mandatory marker (title, type, salary row, company, posted date), yet the
extraction of `docNoImg` fails — `find("img")` returns `None` and
`None['src']` raises `TypeError`.  Failure is therefore not limited to a
missing mandatory-field marker. -/
theorem extractor_failure_not_exact :
    parse_jobs d20240110 docNoImg = .error .typeError ∧
    (findFirst (matchesTC "a" titleClass) cardNoImg).isSome = true ∧
    (findFirst (matchesTC "span" typeClass) cardNoImg).isSome = true ∧
    (findFirst (matchesTC "div" metaRowClass) cardNoImg).isSome = true ∧
    (findFirst (matchesTC "h2" companyClass) cardNoImg).isSome = true ∧
    (findFirst (matchesTC "span" dateClass) cardNoImg).isSome = true := by
  exact ⟨by decide, by decide, by decide, by decide, by decide, by decide⟩

/-- C1 as amended: a document with no listing-card fragment yields the empty
list, not a failure; and whenever an existing fragment lacks one of the five
mandatory markers (title, employment type, salary row, company, posted
date), the whole extraction fails — no list of records, partial or not, is
returned.  (The failure condition is however not *exact*: other defects,
such as a missing image element, also fail; see the counterexample.) -/
theorem extractor_failure (today : Int) (doc frag : Node) :
    (findFirst (matchesTC "div" cardClass) doc = none →
      parse_jobs today doc = .ok []) ∧
    (frag ∈ findAllFrom (matchesTC "div" cardClass) doc →
      (findFirst (matchesTC "a" titleClass) frag = none ∨
       findFirst (matchesTC "span" typeClass) frag = none ∨
       findFirst (matchesTC "div" metaRowClass) frag = none ∨
       findFirst (matchesTC "h2" companyClass) frag = none ∨
       findFirst (matchesTC "span" dateClass) frag = none) →
      ∀ jobs, parse_jobs today doc ≠ .ok jobs) := by
  constructor
  · intro hnone
    unfold parse_jobs
    rw [hnone]
  · intro hmem hmiss jobs hok
    obtain ⟨j, hj⟩ := parse_jobs_ok_forall hok frag hmem
    obtain ⟨titleEl, typeEl, salRow, salSpan, companyEl, imgEl, src, dateEl, href,
      hT, hTy, hSR, _, hC, _, hD, _⟩ := parseJob_ok_inv hj
    rcases hmiss with hm | hm | hm | hm | hm <;> simp_all

/-- Witness for C1 (amended): the empty document yields `ok []`; the
document whose only fragment lacks the title marker fails (with the
`AttributeError` of `None.text`). -/
theorem extractor_failure_witness :
    parse_jobs d20240110 emptyDoc = .ok [] ∧
    (∀ jobs, parse_jobs d20240110 docNoTitle ≠ .ok jobs) ∧
    parse_jobs d20240110 docNoTitle = .error .attributeError :=
  ⟨(extractor_failure d20240110 emptyDoc emptyDoc).1 rfl,
   (extractor_failure d20240110 docNoTitle cardNoTitle).2
     (by
       rw [show findAllFrom (matchesTC "div" cardClass) docNoTitle = [cardNoTitle]
         from rfl]
       exact List.mem_singleton_self _)
     (.inl rfl),
   by decide⟩

/-! ## Claim C2: placeholder fallbacks of the extractor -/

/-- Counterexample to C2: `cardRelImg` carries a present, non-empty image
source with no absolute URL in it, and the extraction of `docRelImg` fails
(`re.search` returns `None` and `.group(0)` raises `AttributeError`) instead
of producing a record with `company_image == "N/A"`. -/
theorem extractor_image_not_placeholder :
    parse_jobs d20240110 docRelImg = .error .attributeError ∧
    (∃ imgEl, findFirst (matchesTag "img") cardRelImg = some imgEl ∧
      attrOf imgEl "src" = some "/logo.png") :=
  ⟨by decide, ⟨.elem "img" "" [("src", "/logo.png")] (nodes []), rfl, rfl⟩⟩

/-- C2 as amended: every produced record has all eight fields; when the
second metadata row is absent the location field is "N/A", and when the
image source or link target attribute is present but *empty* the
company_image / posting_url field is "N/A"; however a missing attribute, a
missing image element, or a non-empty source with no absolute URL is a
failure, not a placeholder.  The spec's one-fragment example extracts with
`location == "N/A"` and every other field populated. -/
theorem extractor_placeholders (today : Int) (frag : Node) (j : JobListing) :
    (parseJob today frag = .ok j →
      ((findAllFrom (matchesTC "div" metaRowClass) frag)[1]? = none →
        j.location = "N/A") ∧
      (∀ imgEl, findFirst (matchesTag "img") frag = some imgEl →
        attrOf imgEl "src" = some "" → j.company_image = "N/A") ∧
      (∀ linkEl, findFirst (matchesTC "a" titleClass) frag = some linkEl →
        attrOf linkEl "href" = some "" → j.posting_url = "N/A")) ∧
    parse_jobs d20240110 docNoSecondRow = .ok [jobNoSecondRow] := by
  constructor
  · intro h
    obtain ⟨titleEl, typeEl, salRow, salSpan, companyEl, imgEl, src, dateEl, href,
      hT, hTy, hSR, hSS, hC, hImg, hD, hSrcAttr, hHrefAttr, _, _, _, _,
      hIU, _, hLoc, hPU⟩ := parseJob_ok_inv h
    refine ⟨?_, ?_, ?_⟩
    · intro hrow
      rcases locationField_ok_inv hLoc with ⟨_, hv⟩ | ⟨row2, _, hrow2, _⟩
      · exact hv.symm ▸ rfl
      · rw [hrow] at hrow2
        cases hrow2
    · intro imgEl2 hImg2 hSrc2
      rw [hImg] at hImg2
      cases Option.some.inj hImg2
      rw [hSrcAttr] at hSrc2
      cases Option.some.inj hSrc2
      unfold imageUrl at hIU
      rw [if_pos (by rfl)] at hIU
      injection hIU with hIU
      exact hIU.symm
    · intro linkEl2 hLink2 hHref2
      rw [hT] at hLink2
      cases Option.some.inj hLink2
      rw [hHrefAttr] at hHref2
      cases Option.some.inj hHref2
      rw [hPU]
      rfl
  · decide

/-- Witness for C2 (amended): the missing second row yields `location =
"N/A"`; empty `src`/`href` attributes yield the two URL placeholders. -/
theorem extractor_placeholders_witness :
    jobNoSecondRow.location = "N/A" ∧ jobEmptyAttrs.company_image = "N/A" ∧
    jobEmptyAttrs.posting_url = "N/A" ∧
    parse_jobs d20240110 docNoSecondRow = .ok [jobNoSecondRow] :=
  ⟨(((extractor_placeholders d20240110 cardNoSecondRow jobNoSecondRow).1
      (by decide)).1) rfl,
   (((extractor_placeholders d20240110 cardEmptyAttrs jobEmptyAttrs).1
      (by decide)).2.1) (.elem "img" "" [("src", "")] (nodes [])) rfl rfl,
   (((extractor_placeholders d20240110 cardEmptyAttrs jobEmptyAttrs).1
      (by decide)).2.2) (.elem "a" titleClass [("href", "")]
        (nodes [.text "Backend Engineer"])) rfl rfl,
   (extractor_placeholders d20240110 fullCard fullJob).2⟩

/-! ## Claim C10: which fields pass through the sanitizer -/

/-- C10: in every successfully extracted record, the title, employment type
and company fields are the marker's raw text with only leading and trailing
whitespace stripped (no sanitizer pass), while the salary and location
fields are the output of the sanitizer on their markers' stripped text. -/
theorem raw_fields_not_sanitized (today : Int) (frag : Node) (j : JobListing)
    (h : parseJob today frag = .ok j) :
    (∃ titleEl, findFirst (matchesTC "a" titleClass) frag = some titleEl ∧
      j.title = pyStripS (texts titleEl)) ∧
    (∃ typeEl, findFirst (matchesTC "span" typeClass) frag = some typeEl ∧
      j.type = pyStripS (texts typeEl)) ∧
    (∃ companyEl, findFirst (matchesTC "h2" companyClass) frag = some companyEl ∧
      j.company = pyStripS (texts companyEl)) ∧
    (∃ salRow salSpan, findFirst (matchesTC "div" metaRowClass) frag = some salRow ∧
      findFirst (matchesTC "span" metaSpanClass) salRow = some salSpan ∧
      sanitize_string (pyStripS (texts salSpan)) = .ok j.salary) ∧
    (∀ row2, (findAllFrom (matchesTC "div" metaRowClass) frag)[1]? = some row2 →
      ∃ locSpan, findFirst (matchesTC "span" metaSpanClass) row2 = some locSpan ∧
        sanitize_string (pyStripS (texts locSpan)) = .ok j.location) := by
  obtain ⟨titleEl, typeEl, salRow, salSpan, companyEl, imgEl, src, dateEl, href,
    hT, hTy, hSR, hSS, hC, hImg, hD, hSrcAttr, hHrefAttr, hTitle, hType, hSal,
    hCompany, hIU, hPD, hLoc, hPU⟩ := parseJob_ok_inv h
  refine ⟨⟨titleEl, hT, hTitle⟩, ⟨typeEl, hTy, hType⟩, ⟨companyEl, hC, hCompany⟩,
    ⟨salRow, salSpan, hSR, hSS, hSal⟩, ?_⟩
  intro row2 hrow
  rcases locationField_ok_inv hLoc with ⟨hnone, _⟩ | ⟨row2b, locSpan, hrow2, hspan, hsan⟩
  · rw [hrow] at hnone
    cases hnone
  · rw [hrow] at hrow2
    cases Option.some.inj hrow2
    exact ⟨locSpan, hspan, hsan⟩

/-- Witness for C10: on `cardAccent` the extracted title keeps the non-ASCII
letter and the interior double space of the raw marker text (only the ends
are stripped), while the same text through the sanitizer would lose both. -/
theorem raw_fields_not_sanitized_witness :
    (∃ titleEl, findFirst (matchesTC "a" titleClass) cardAccent = some titleEl ∧
      jobAccent.title = pyStripS (texts titleEl)) ∧
    jobAccent.title = "Café  Dev" ∧
    sanitize_string "Café  Dev" = .ok "Caf Dev" :=
  ⟨(raw_fields_not_sanitized d20240110 cardAccent jobAccent (by decide)).1,
   by decide, by decide⟩

end FoundIt
